/-
Verification of the tourism_data_project data-preparation utilities.

Shallow embedding of the Python sources:
  * notebooks/shared/scripts/data_io.py       (chunk conversion, idempotence check)
  * scripts/data_extraction.py                (city dataset extraction, merge, seasons)
  * scripts/feature_engineering.py            (add_seasons temporal deriver)
  * notebooks/shared/scripts/airbnb_utils.py  (InsideAirbnb downloader)
  * scripts/data_filtering.py                 (tourism establishment classifier)

Modelling conventions:
  * A line of a line-delimited JSON file is `Option ρ`: `some r` is a line that
    `json.loads` decodes to record `r`, `none` is a malformed line on which
    `json.loads` raises `JSONDecodeError`.
  * Functions that can raise a Python exception return `Except String _`.
  * Pandas missing values (NaN / None / NaT) are `Option _`.
  * Float payload fields (star ratings, coordinates) are modelled as `Int`:
    no claim performs arithmetic on them, they are only carried, compared for
    presence, and copied by merges.
  * The output directory of the chunk converter is modelled as the list of the
    chunk files it holds (in index order), each file being its list of rows.
-/
import Mathlib

/-! ## data_io.py : convert_json_dataset_to_chunks -/

/-- Mutable state of the conversion loop in `convert_json_dataset_to_chunks`
(data_io.py lines 199-231): the in-memory `records` buffer, the chunk files
written so far (in index order), the `chunk_count` and `total_records`
counters, and the warnings printed for malformed lines (each warning is the
1-based line number it reports). -/
structure ConvState (α : Type) where
  records : List α
  chunks : List (List α)
  chunk_count : Nat
  total_records : Nat
  warnings : List Nat
deriving DecidableEq

/-- One iteration of `for line_num, line in enumerate(f)` in
`convert_json_dataset_to_chunks`: a decodable line is appended to the buffer
and the buffer is flushed as a chunk file once `len(records) >= chunk_size`;
a malformed line prints `Warning: Skipping malformed JSON at line {line_num + 1}`
and continues. -/
def processLine (chunk_size : Nat) (s : ConvState α) (line : Option α)
    (line_num : Nat) : ConvState α :=
  match line with
  | none => { s with warnings := s.warnings ++ [line_num + 1] }
  | some r =>
    let records := s.records ++ [r]
    if chunk_size ≤ records.length then
      { records := [], chunks := s.chunks ++ [records],
        chunk_count := s.chunk_count + 1,
        total_records := s.total_records + 1, warnings := s.warnings }
    else
      { s with records := records, total_records := s.total_records + 1 }

/-- The whole `for line_num, line in enumerate(f)` loop, `line_num` starting
at `ln`. -/
def scanLines (chunk_size : Nat) : Nat → ConvState α → List (Option α) → ConvState α
  | _, s, [] => s
  | ln, s, line :: rest => scanLines chunk_size (ln + 1) (processLine chunk_size s line ln) rest

/-- The 1-based line numbers of the malformed lines of a file, when the first
line shown is line `ln` (0-based). -/
def malformedLines : Nat → List (Option α) → List Nat
  | _, [] => []
  | ln, some _ :: rest => malformedLines (ln + 1) rest
  | ln, none :: rest => (ln + 1) :: malformedLines (ln + 1) rest

/-- The `if records:` block after the loop (data_io.py lines 233-244): the
remaining buffered records are written as one final (possibly partial) chunk. -/
def finalFlush (s : ConvState α) : ConvState α :=
  if s.records.isEmpty then s
  else
    { records := [], chunks := s.chunks ++ [s.records],
      chunk_count := s.chunk_count + 1,
      total_records := s.total_records, warnings := s.warnings }

/-- The conversion body of `convert_json_dataset_to_chunks` (data_io.py lines
199-251): run the scan loop from the empty state, then write the remaining
buffered records as a final (possibly partial) chunk. The function returns
`(True, chunk_count, total_records)`; the written chunk files are
`(convertBody _ _).chunks`. -/
def convertBody (chunk_size : Nat) (lines : List (Option α)) : ConvState α :=
  finalFlush (scanLines chunk_size 0 ⟨[], [], 0, 0, []⟩ lines)

/-- `check_existing_chunks` (data_io.py lines 128-159) on a directory holding
`existing` chunk files matching the glob pattern: returns
`(exists, chunk_count)`. A missing directory is modelled as an empty one
(both return `(False, 0)`). -/
def check_existing_chunks (existing : List (List α)) : Bool × Nat :=
  if existing.isEmpty then (false, 0) else (true, existing.length)

/-- Observable outcome of one call of `convert_json_dataset_to_chunks`:
the directory contents afterwards, the chunk files this call wrote, and the
returned triple `(success, chunk_count, total_records)`. -/
structure ConvertResult (α : Type) where
  dir : List (List α)
  writes : List (List α)
  success : Bool
  chunk_count : Nat
  total_records : Nat
deriving DecidableEq

/-- `convert_json_dataset_to_chunks` (data_io.py lines 161-251).
`existing` is the list of chunk files already in `output_dir` that match
`{file_prefix}_chunk_*.parquet` (in index order), `lines` the lines of
`json_file`. If chunks exist the conversion is skipped: nothing is written
and the returned record total is `count * len(sample_df)` where the sample is
whichever existing chunk `next(output_dir.glob(...))` happens to yield first —
Python's glob enumeration order is filesystem-dependent and unspecified, so
the sample is an arbitrary member of the directory, modelled by the extra
index `globIdx` (taken mod the file count to stay in range); theorems
quantify over it. Otherwise the body runs and writes its chunks. -/
def convert_json_dataset_to_chunks (chunk_size : Nat) (existing : List (List α))
    (globIdx : Nat) (lines : List (Option α)) : ConvertResult α :=
  let c := check_existing_chunks existing
  if c.1 then
    { dir := existing, writes := [],
      success := true, chunk_count := c.2,
      total_records := c.2 * (existing.getD (globIdx % existing.length) []).length }
  else
    let s := convertBody chunk_size lines
    { dir := existing ++ s.chunks, writes := s.chunks,
      success := true, chunk_count := s.chunk_count,
      total_records := s.total_records }

/-- Invariant of the conversion loop: starting from a buffer shorter than the
chunk size, the loop only appends chunks of exactly `chunk_size` records,
the written records followed by the final buffer are the previous contents
followed by the decodable records of the scanned lines in order, the final
buffer is again shorter than the chunk size, `total_records` grows by the
number of decodable lines, and one warning is appended per malformed line,
carrying its 1-based line number. -/
theorem scanLines_spec {α : Type} (k : Nat) (hk : 0 < k) :
    ∀ (ls : List (Option α)) (ln : Nat) (s : ConvState α), s.records.length < k →
      (∃ new, (scanLines k ln s ls).chunks = s.chunks ++ new ∧ ∀ c ∈ new, c.length = k)
      ∧ (scanLines k ln s ls).chunks.flatten ++ (scanLines k ln s ls).records
          = s.chunks.flatten ++ s.records ++ ls.filterMap id
      ∧ (scanLines k ln s ls).records.length < k
      ∧ (scanLines k ln s ls).total_records = s.total_records + (ls.filterMap id).length
      ∧ (scanLines k ln s ls).warnings = s.warnings ++ malformedLines ln ls := by
  intro ls
  induction ls with
  | nil =>
    intro ln s h
    refine ⟨⟨[], by simp [scanLines], by simp⟩, ?_, ?_, ?_, ?_⟩ <;>
      simp [scanLines, malformedLines, h]
  | cons line rest ih =>
    intro ln s h
    cases line with
    | none =>
      have hfm : List.filterMap id (none :: rest) = List.filterMap id rest := rfl
      have hsc : scanLines k ln s (none :: rest)
          = scanLines k (ln + 1) { s with warnings := s.warnings ++ [ln + 1] } rest := rfl
      have ihr := ih (ln + 1) { s with warnings := s.warnings ++ [ln + 1] } h
      obtain ⟨⟨new, hnew, hlen⟩, hflat, hrec, htot, hwarn⟩ := ihr
      rw [hsc, hfm]
      refine ⟨⟨new, by simpa using hnew, hlen⟩, by simpa using hflat, hrec,
        by simpa using htot, ?_⟩
      rw [hwarn]
      simp [malformedLines]
    | some r =>
      have hfm : List.filterMap id (some r :: rest) = r :: List.filterMap id rest := rfl
      by_cases hb : k ≤ s.records.length + 1
      · have hstep : processLine k s (some r) ln =
            { records := [], chunks := s.chunks ++ [s.records ++ [r]],
              chunk_count := s.chunk_count + 1,
              total_records := s.total_records + 1, warnings := s.warnings } := by
          simp [processLine, hb]
        have hsc : scanLines k ln s (some r :: rest)
            = scanLines k (ln + 1)
                { records := [], chunks := s.chunks ++ [s.records ++ [r]],
                  chunk_count := s.chunk_count + 1,
                  total_records := s.total_records + 1, warnings := s.warnings } rest := by
          show scanLines k (ln + 1) (processLine k s (some r) ln) rest = _
          rw [hstep]
        have ihr := ih (ln + 1)
          { records := [], chunks := s.chunks ++ [s.records ++ [r]],
            chunk_count := s.chunk_count + 1,
            total_records := s.total_records + 1, warnings := s.warnings } (by simpa using hk)
        obtain ⟨⟨new, hnew, hlen⟩, hflat, hrec, htot, hwarn⟩ := ihr
        rw [hsc, hfm]
        refine ⟨⟨(s.records ++ [r]) :: new, ?_, ?_⟩, ?_, hrec, ?_, ?_⟩
        · simp only at hnew
          rw [hnew]
          simp
        · intro c hc
          rcases List.mem_cons.mp hc with hc | hc
          · subst hc
            simp only [List.length_append, List.length_cons, List.length_nil]
            omega
          · exact hlen c hc
        · rw [hflat]
          simp
        · rw [htot]
          simp only [List.length_cons]
          omega
        · rw [hwarn]
          rfl
      · have hstep : processLine k s (some r) ln =
            { s with records := s.records ++ [r],
                     total_records := s.total_records + 1 } := by
          simp [processLine, hb]
        have hsc : scanLines k ln s (some r :: rest)
            = scanLines k (ln + 1)
                { s with records := s.records ++ [r],
                         total_records := s.total_records + 1 } rest := by
          show scanLines k (ln + 1) (processLine k s (some r) ln) rest = _
          rw [hstep]
        have hlt : (s.records ++ [r]).length < k := by
          simp only [List.length_append, List.length_cons, List.length_nil]
          omega
        have ihr := ih (ln + 1)
          { s with records := s.records ++ [r],
                   total_records := s.total_records + 1 } hlt
        obtain ⟨⟨new, hnew, hlen⟩, hflat, hrec, htot, hwarn⟩ := ihr
        rw [hsc, hfm]
        refine ⟨⟨new, by simpa using hnew, hlen⟩, ?_, hrec, ?_, by simpa using hwarn⟩
        · rw [hflat]
          simp
        · rw [htot]
          simp only [List.length_cons]
          omega

/-- The loop keeps `chunk_count` equal to the number of chunk files written. -/
theorem scanLines_count {α : Type} (k : Nat) :
    ∀ (ls : List (Option α)) (ln : Nat) (s : ConvState α),
      s.chunk_count = s.chunks.length →
      (scanLines k ln s ls).chunk_count = (scanLines k ln s ls).chunks.length := by
  intro ls
  induction ls with
  | nil => intro ln s h; simpa [scanLines] using h
  | cons line rest ih =>
    intro ln s h
    cases line with
    | none => exact ih (ln + 1) _ (by simpa [processLine] using h)
    | some r =>
      by_cases hb : k ≤ s.records.length + 1
      · refine ih (ln + 1) _ ?_
        simp [processLine, hb, h]
      · refine ih (ln + 1) _ ?_
        simp [processLine, hb, h]

/-- A list of lists, each of length `k`, flattens to `length * k` elements. -/
theorem flatten_length_of_all {α : Type} (k : Nat) :
    ∀ (L : List (List α)), (∀ c ∈ L, c.length = k) → L.flatten.length = L.length * k := by
  intro L
  induction L with
  | nil => simp
  | cons c L ih =>
    intro h
    have hc := h c (by simp)
    have hL := ih fun d hd => h d (by simp [hd])
    simp [hc, hL, Nat.succ_mul, Nat.add_comm]

/-- Ceiling division, exact case: `m` full chunks of `k` records make
`⌈(m*k)/k⌉ = m` chunks. -/
theorem chunkCeil_full (k m : Nat) (hk : 0 < k) : (m * k + k - 1) / k = m := by
  rw [Nat.add_sub_assoc hk, Nat.mul_comm m k, Nat.mul_add_div hk,
    Nat.div_eq_of_lt (by omega)]
  omega

/-- Ceiling division, carry case: `m` full chunks plus a partial chunk of
`0 < r < k` records make `⌈(m*k + r)/k⌉ = m + 1` chunks. -/
theorem chunkCeil_carry (k m r : Nat) (hk : 0 < k) (h1 : 0 < r) (h2 : r < k) :
    (m * k + r + k - 1) / k = m + 1 := by
  have e : m * k + r + k - 1 = m * k + (r + k - 1) := by
    rw [Nat.add_assoc]
    exact Nat.add_sub_assoc (by omega) _
  have e3 : r + k - 1 = (r - 1) + k := by omega
  rw [e, Nat.mul_comm m k, Nat.mul_add_div hk, e3, Nat.add_div_right _ hk,
    Nat.div_eq_of_lt (by omega)]

/-- What one fresh conversion run writes: the chunk files flatten back to
exactly the decodable records in original order, every chunk but the last has
exactly `chunk_size` rows, `total_records` counts the decodable lines, one
warning per malformed line, the returned `chunk_count` is the number of files
written, and that number is `⌈n / chunk_size⌉` for `n` decodable records. -/
theorem convertBody_spec {α : Type} (k : Nat) (hk : 0 < k) (lines : List (Option α)) :
    (convertBody k lines).chunks.flatten = lines.filterMap id
    ∧ (∀ c ∈ (convertBody k lines).chunks.dropLast, c.length = k)
    ∧ (convertBody k lines).total_records = (lines.filterMap id).length
    ∧ (convertBody k lines).warnings = malformedLines 0 lines
    ∧ (convertBody k lines).chunk_count = (convertBody k lines).chunks.length
    ∧ (convertBody k lines).chunks.length = ((lines.filterMap id).length + k - 1) / k := by
  obtain ⟨⟨new, hnew, hlen⟩, hflat, hrec, htot, hwarn⟩ :=
    scanLines_spec k hk lines 0 ⟨[], [], 0, 0, []⟩ (by simpa using hk)
  have hcount := scanLines_count k lines 0 ⟨[], [], 0, 0, []⟩ rfl
  simp only [convertBody]
  generalize hG : scanLines k 0 (⟨[], [], 0, 0, []⟩ : ConvState α) lines = s
    at hnew hflat hrec htot hwarn hcount ⊢
  simp only [List.nil_append, List.flatten_nil, Nat.zero_add] at hnew hflat htot hwarn
  cases hr : s.records with
  | nil =>
    have hff : finalFlush s = s := by simp [finalFlush, hr]
    rw [hff]
    rw [hr, List.append_nil] at hflat
    have hlenmul : s.chunks.flatten.length = s.chunks.length * k := by
      rw [hnew]
      exact flatten_length_of_all k new hlen
    refine ⟨hflat, ?_, htot, hwarn, hcount, ?_⟩
    · intro c hc
      have hc' : c ∈ s.chunks := (List.dropLast_sublist _).subset hc
      rw [hnew] at hc'
      exact hlen c hc'
    · have hn : (lines.filterMap id).length = s.chunks.length * k := by
        rw [← hflat]
        exact hlenmul
      rw [hn]
      exact (chunkCeil_full k s.chunks.length hk).symm
  | cons a l =>
    have hff : finalFlush s =
        { records := [], chunks := s.chunks ++ [s.records],
          chunk_count := s.chunk_count + 1,
          total_records := s.total_records, warnings := s.warnings } := by
      simp [finalFlush, hr]
    rw [hff]
    have hblen0 : 0 < s.records.length := by rw [hr]; simp
    have hblenk : s.records.length < k := hrec
    have hlenmul : s.chunks.flatten.length = s.chunks.length * k := by
      rw [hnew]
      exact flatten_length_of_all k new hlen
    have hn : (lines.filterMap id).length = s.chunks.length * k + s.records.length := by
      rw [← hflat]
      simp [hlenmul]
    refine ⟨?_, ?_, htot, hwarn, ?_, ?_⟩
    · simp only [List.flatten_append, List.flatten_cons, List.flatten_nil, List.append_nil]
      exact hflat
    · intro c hc
      rw [List.dropLast_concat] at hc
      have hc' : c ∈ new := by rwa [hnew] at hc
      exact hlen c hc'
    · simp [hcount]
    · simp only [List.length_append, List.length_cons, List.length_nil]
      rw [hn]
      exact (chunkCeil_carry k s.chunks.length s.records.length hk hblen0 hblenk).symm

/-- A list of lists whose non-last members all have length `k` and whose last
member is shorter than `k` holds strictly fewer elements in total than
`length * k`. -/
theorem sum_lengths_lt_of_last_short {α : Type} (k : Nat) (L : List (List α))
    (hne : L ≠ []) (hall : ∀ c ∈ L.dropLast, c.length = k)
    (hlast : (L.getLastD []).length < k) :
    (L.map List.length).sum < L.length * k := by
  have hdec := List.dropLast_append_getLast hne
  have hsum : (L.map List.length).sum = L.flatten.length := (List.length_flatten L).symm
  have hflat : L.flatten = L.dropLast.flatten ++ L.getLast hne := by
    conv_lhs => rw [← hdec]
    simp
  have hdl : L.dropLast.flatten.length = L.dropLast.length * k :=
    flatten_length_of_all k _ hall
  have hlen : L.length = L.dropLast.length + 1 := by
    have := List.length_dropLast L
    have hpos : 0 < L.length := List.length_pos.mpr hne
    omega
  have hlast' : (L.getLast hne).length < k := by
    rwa [List.getLastD_eq_getLast? , List.getLast?_eq_getLast L hne, Option.getD_some] at hlast
  rw [hsum, hflat, List.length_append, hdl, hlen, Nat.succ_mul]
  exact Nat.add_lt_add_left hlast' _

/-- C1: for every chunk size `k > 0` and sequence of `n` decodable records, a
fresh run of `convert_json_dataset_to_chunks` writes exactly `⌈n/k⌉` chunk
files, each chunk except possibly the last holds exactly `k` records,
concatenating the chunks in index order gives back the records in order, the
returned `chunk_count` is the number of chunks, and `total_records = n`. -/
theorem convert_chunking_correct {α : Type} (k : Nat) (hk : 0 < k) (rs : List α)
    (globIdx : Nat) :
    (convert_json_dataset_to_chunks k ([] : List (List α)) globIdx (rs.map some)).writes.length
        = (rs.length + k - 1) / k
    ∧ (∀ c ∈ (convert_json_dataset_to_chunks k ([] : List (List α)) globIdx (rs.map some)).writes.dropLast,
        c.length = k)
    ∧ (convert_json_dataset_to_chunks k ([] : List (List α)) globIdx (rs.map some)).writes.flatten = rs
    ∧ (convert_json_dataset_to_chunks k ([] : List (List α)) globIdx (rs.map some)).chunk_count
        = (convert_json_dataset_to_chunks k ([] : List (List α)) globIdx (rs.map some)).writes.length
    ∧ (convert_json_dataset_to_chunks k ([] : List (List α)) globIdx (rs.map some)).total_records
        = rs.length
    ∧ (convert_json_dataset_to_chunks k ([] : List (List α)) globIdx (rs.map some)).dir
        = (convert_json_dataset_to_chunks k ([] : List (List α)) globIdx (rs.map some)).writes := by
  obtain ⟨hflat, hdrop, htot, _, hcount, hceil⟩ := convertBody_spec k hk (rs.map some)
  have hfm : (rs.map some).filterMap id = rs := by simp
  rw [hfm] at hflat htot hceil
  have hred : convert_json_dataset_to_chunks k ([] : List (List α)) globIdx (rs.map some)
      = { dir := [] ++ (convertBody k (rs.map some)).chunks,
          writes := (convertBody k (rs.map some)).chunks,
          success := true,
          chunk_count := (convertBody k (rs.map some)).chunk_count,
          total_records := (convertBody k (rs.map some)).total_records } := rfl
  rw [hred]
  exact ⟨hceil.symm ▸ rfl, hdrop, hflat, by simpa using hcount, htot, by simp⟩

/-- Witness for C1 at `k = 2`, records `[1, 2, 3]`. -/
theorem convert_chunking_correct_witness :
    0 < 2
    ∧ ((convert_json_dataset_to_chunks 2 ([] : List (List Nat)) 0 ([1, 2, 3].map some)).writes.length
          = (([1, 2, 3] : List Nat).length + 2 - 1) / 2
        ∧ (∀ c ∈ (convert_json_dataset_to_chunks 2 ([] : List (List Nat)) 0
              ([1, 2, 3].map some)).writes.dropLast, c.length = 2)
        ∧ (convert_json_dataset_to_chunks 2 ([] : List (List Nat)) 0
              ([1, 2, 3].map some)).writes.flatten = [1, 2, 3]
        ∧ (convert_json_dataset_to_chunks 2 ([] : List (List Nat)) 0
              ([1, 2, 3].map some)).chunk_count
            = (convert_json_dataset_to_chunks 2 ([] : List (List Nat)) 0
                ([1, 2, 3].map some)).writes.length
        ∧ (convert_json_dataset_to_chunks 2 ([] : List (List Nat)) 0
              ([1, 2, 3].map some)).total_records = ([1, 2, 3] : List Nat).length
        ∧ (convert_json_dataset_to_chunks 2 ([] : List (List Nat)) 0 ([1, 2, 3].map some)).dir
            = (convert_json_dataset_to_chunks 2 ([] : List (List Nat)) 0
                ([1, 2, 3].map some)).writes) :=
  ⟨by decide, convert_chunking_correct 2 (by decide) [1, 2, 3] 0⟩

/-- C2: re-running `convert_json_dataset_to_chunks` on a directory that already
holds chunk files writes nothing, leaves the directory unchanged, returns
success with the observed chunk-file count, and its result does not depend on
the source file's current contents. -/
theorem convert_rerun_noop {α : Type} (k : Nat) (existing : List (List α))
    (h : existing ≠ []) (globIdx : Nat) (lines lines' : List (Option α)) :
    (convert_json_dataset_to_chunks k existing globIdx lines).writes = []
    ∧ (convert_json_dataset_to_chunks k existing globIdx lines).dir = existing
    ∧ (convert_json_dataset_to_chunks k existing globIdx lines).success = true
    ∧ (convert_json_dataset_to_chunks k existing globIdx lines).chunk_count = existing.length
    ∧ convert_json_dataset_to_chunks k existing globIdx lines
        = convert_json_dataset_to_chunks k existing globIdx lines' := by
  cases existing with
  | nil => exact absurd rfl h
  | cons c cs =>
    refine ⟨?_, ?_, ?_, ?_, ?_⟩ <;>
      simp [convert_json_dataset_to_chunks, check_existing_chunks]

/-- Witness for C2: a directory holding chunks `[[1, 2], [3]]`, two different
source files. -/
theorem convert_rerun_noop_witness :
    ([[1, 2], [3]] : List (List Nat)) ≠ []
    ∧ ((convert_json_dataset_to_chunks 2 [[1, 2], [3]] 0 [some 9]).writes = []
        ∧ (convert_json_dataset_to_chunks 2 [[1, 2], [3]] 0 [some 9]).dir = [[1, 2], [3]]
        ∧ (convert_json_dataset_to_chunks 2 [[1, 2], [3]] 0 [some 9]).success = true
        ∧ (convert_json_dataset_to_chunks 2 [[1, 2], [3]] 0 [some 9]).chunk_count
            = ([[1, 2], [3]] : List (List Nat)).length
        ∧ convert_json_dataset_to_chunks 2 [[1, 2], [3]] 0 [some 9]
            = convert_json_dataset_to_chunks 2 [[1, 2], [3]] 0 ([] : List (Option Nat))) :=
  ⟨by decide, convert_rerun_noop 2 [[1, 2], [3]] (by decide) 0 [some 9] []⟩

/-- An in-range `getD` selects a member of the list. -/
theorem getD_mem {α : Type} : ∀ (l : List α) (i : Nat) (d : α), i < l.length → l.getD i d ∈ l := by
  intro l
  induction l with
  | nil =>
    intro i d hi
    simp at hi
  | cons a t ih =>
    intro i d hi
    cases i with
    | zero => simp
    | succ j =>
      rw [List.getD_cons_succ]
      exact List.mem_cons_of_mem a (ih j d (by simpa using hi))

/-- A list of lists all of length `s` holds `length * s` elements in total. -/
theorem sum_map_length_of_all {α : Type} (s : Nat) :
    ∀ (L : List (List α)), (∀ c ∈ L, c.length = s) →
      (L.map List.length).sum = L.length * s := by
  intro L
  induction L with
  | nil => simp
  | cons c t ih =>
    intro hall
    have hc := hall c (by simp)
    have ht := ih (fun d hd => hall d (by simp [hd]))
    simp [hc, ht, Nat.succ_mul, Nat.add_comm]

/-- A list of ≥ 2 lists whose non-last members all have length `k` and whose
last member is shorter than `k` holds strictly more elements in total than
`length` times the short last member's length. -/
theorem sum_lengths_gt_of_sample_short {α : Type} (k : Nat) (L : List (List α))
    (h2 : 2 ≤ L.length) (hall : ∀ c ∈ L.dropLast, c.length = k)
    (hlast : (L.getLastD []).length < k) :
    L.length * (L.getLastD []).length < (L.map List.length).sum := by
  have hne : L ≠ [] := by
    intro he
    rw [he] at h2
    simp at h2
  have hdec := List.dropLast_append_getLast hne
  have hsum : (L.map List.length).sum = L.flatten.length := (List.length_flatten L).symm
  have hflat : L.flatten = L.dropLast.flatten ++ L.getLast hne := by
    conv_lhs => rw [← hdec]
    simp
  have hdl : L.dropLast.flatten.length = L.dropLast.length * k :=
    flatten_length_of_all k _ hall
  have hlen : L.length = L.dropLast.length + 1 := by
    have := List.length_dropLast L
    have hpos : 0 < L.length := List.length_pos.mpr hne
    omega
  have hgld : (L.getLastD []).length = (L.getLast hne).length := by
    rw [List.getLastD_eq_getLast?, List.getLast?_eq_getLast L hne, Option.getD_some]
  have hdlpos : 0 < L.dropLast.length := by omega
  rw [hsum, hflat, List.length_append, hdl, hlen, Nat.succ_mul, hgld]
  exact Nat.add_lt_add_right (mul_lt_mul_of_pos_left (hgld ▸ hlast) hdlpos) _

/-- C9 (amended): on the skip path the returned `total_records` is the number
of existing chunk files times the row count of one arbitrary existing chunk
file (whichever one the filesystem-dependent `next(output_dir.glob(...))`
yields, an actual member of the directory). The estimate is exact whenever
every chunk has the sampled chunk's row count; in a directory left by a
completed conversion with at least two chunks and a partial last chunk, it
strictly exceeds the true record count when a full chunk is sampled and falls
strictly below it when the partial chunk is sampled. -/
theorem convert_skip_estimate {α : Type} (k : Nat) (existing : List (List α))
    (h : existing ≠ []) (globIdx : Nat) (lines : List (Option α)) :
    (convert_json_dataset_to_chunks k existing globIdx lines).total_records
        = existing.length * (existing.getD (globIdx % existing.length) []).length
    ∧ existing.getD (globIdx % existing.length) [] ∈ existing
    ∧ ((∀ c ∈ existing,
          c.length = (existing.getD (globIdx % existing.length) []).length) →
        (convert_json_dataset_to_chunks k existing globIdx lines).total_records
          = (existing.map List.length).sum)
    ∧ (2 ≤ existing.length → (∀ c ∈ existing.dropLast, c.length = k) →
        (existing.getLastD []).length < k →
        (existing.getD (globIdx % existing.length) []).length = k →
        (existing.map List.length).sum
          < (convert_json_dataset_to_chunks k existing globIdx lines).total_records)
    ∧ (2 ≤ existing.length → (∀ c ∈ existing.dropLast, c.length = k) →
        (existing.getLastD []).length < k →
        (existing.getD (globIdx % existing.length) []).length < k →
        (convert_json_dataset_to_chunks k existing globIdx lines).total_records
          < (existing.map List.length).sum) := by
  have hpos : 0 < existing.length := List.length_pos.mpr h
  have hlt : globIdx % existing.length < existing.length := Nat.mod_lt _ hpos
  have hmem : existing.getD (globIdx % existing.length) [] ∈ existing :=
    getD_mem existing _ [] hlt
  have hval : (convert_json_dataset_to_chunks k existing globIdx lines).total_records
      = existing.length * (existing.getD (globIdx % existing.length) []).length := by
    cases existing with
    | nil => exact absurd rfl h
    | cons c cs => rfl
  refine ⟨hval, hmem, ?_, ?_, ?_⟩
  · intro hall
    rw [hval, sum_map_length_of_all _ existing hall]
  · intro h2 hall hlast hsk
    rw [hval, hsk]
    exact sum_lengths_lt_of_last_short k existing h hall hlast
  · intro h2 hall hlast hsk
    have hdec := List.dropLast_append_getLast h
    have hsample_last : existing.getD (globIdx % existing.length) []
        = existing.getLast h := by
      have hmem2 : existing.getD (globIdx % existing.length) []
          ∈ existing.dropLast ++ [existing.getLast h] := by
        rw [hdec]
        exact hmem
      rcases List.mem_append.mp hmem2 with hm | hm
      · exact absurd (hall _ hm) (by omega)
      · simpa using hm
    have hgld : existing.getLastD [] = existing.getLast h := by
      rw [List.getLastD_eq_getLast?, List.getLast?_eq_getLast existing h, Option.getD_some]
    rw [hval, hsample_last, ← hgld]
    exact sum_lengths_gt_of_sample_short k existing h2 hall hlast

/-- Witness for C9's amended statement: directory `[[1, 2], [3]]` produced
with chunk size 2, enumeration order sampling index 0 (the full chunk): the
skip-path estimate is `2 * 2 = 4`, the true count is 3. -/
theorem convert_skip_estimate_witness :
    ([[1, 2], [3]] : List (List Nat)) ≠ []
    ∧ ((convert_json_dataset_to_chunks 2 [[1, 2], [3]] 0 ([] : List (Option Nat))).total_records
          = ([[1, 2], [3]] : List (List Nat)).length
              * (([[1, 2], [3]] : List (List Nat)).getD
                  (0 % ([[1, 2], [3]] : List (List Nat)).length) []).length
        ∧ ([[1, 2], [3]] : List (List Nat)).getD
              (0 % ([[1, 2], [3]] : List (List Nat)).length) []
            ∈ ([[1, 2], [3]] : List (List Nat))
        ∧ ((∀ c ∈ ([[1, 2], [3]] : List (List Nat)),
              c.length = (([[1, 2], [3]] : List (List Nat)).getD
                (0 % ([[1, 2], [3]] : List (List Nat)).length) []).length) →
            (convert_json_dataset_to_chunks 2 [[1, 2], [3]] 0
                ([] : List (Option Nat))).total_records
              = (([[1, 2], [3]] : List (List Nat)).map List.length).sum)
        ∧ (2 ≤ ([[1, 2], [3]] : List (List Nat)).length →
            (∀ c ∈ ([[1, 2], [3]] : List (List Nat)).dropLast, c.length = 2) →
            (([[1, 2], [3]] : List (List Nat)).getLastD []).length < 2 →
            (([[1, 2], [3]] : List (List Nat)).getD
                (0 % ([[1, 2], [3]] : List (List Nat)).length) []).length = 2 →
            (([[1, 2], [3]] : List (List Nat)).map List.length).sum
              < (convert_json_dataset_to_chunks 2 [[1, 2], [3]] 0
                  ([] : List (Option Nat))).total_records)
        ∧ (2 ≤ ([[1, 2], [3]] : List (List Nat)).length →
            (∀ c ∈ ([[1, 2], [3]] : List (List Nat)).dropLast, c.length = 2) →
            (([[1, 2], [3]] : List (List Nat)).getLastD []).length < 2 →
            (([[1, 2], [3]] : List (List Nat)).getD
                (0 % ([[1, 2], [3]] : List (List Nat)).length) []).length < 2 →
            (convert_json_dataset_to_chunks 2 [[1, 2], [3]] 0
                ([] : List (Option Nat))).total_records
              < (([[1, 2], [3]] : List (List Nat)).map List.length).sum)) :=
  ⟨by decide, convert_skip_estimate 2 [[1, 2], [3]] (by decide) 0 []⟩

/-- Counterexample for C9 as stated: a completed conversion of one record
with chunk size 2 leaves the single partial chunk `[[7]]`; re-running returns
`total_records = 1` under every enumeration order (indices 0 and 5 shown —
the only chunk is always the sample), which EQUALS the true record count
although the last chunk is partial — the estimate does not differ "whenever
the last chunk is partial". -/
theorem convert_skip_estimate_cex :
    (convert_json_dataset_to_chunks 2 ([] : List (List Nat)) 0 [some 7]).dir = [[7]]
    ∧ (convert_json_dataset_to_chunks 2 [[7]] 0 ([] : List (Option Nat))).total_records = 1
    ∧ (convert_json_dataset_to_chunks 2 [[7]] 5 ([] : List (Option Nat))).total_records = 1
    ∧ (([[7]] : List (List Nat)).map List.length).sum = 1
    ∧ (([[7]] : List (List Nat)).getLastD []).length < 2 := by decide

example :
    (convertBody 2 [some 1, some 2, some 3, none, some 4, some 5]).chunks
      = [[1, 2], [3, 4], [5]] := by decide

/-! ## data_extraction.py : extract_city_dataset -/

/-- A row of the `business_df` DataFrame handed to `extract_city_dataset`,
with the columns produced by `extract_all_businesses` (data_extraction.py
lines 90-102). Nullable columns are `Option`. -/
structure BusinessRow where
  business_id : String
  name : String
  city : String
  state : String
  postal_code : Option String
  latitude : Option Int
  longitude : Option Int
  stars : Option Int
  review_count : Option Int
  is_open : Option Int
  categories : Option String
deriving DecidableEq

/-- `business_df_clean` after the column renaming of data_extraction.py lines
286-292: `name → business_name`, `stars → business_avg_stars`,
`review_count → business_total_reviews`. -/
structure BusinessClean where
  business_id : String
  business_name : String
  city : String
  state : String
  postal_code : Option String
  latitude : Option Int
  longitude : Option Int
  business_avg_stars : Option Int
  business_total_reviews : Option Int
  is_open : Option Int
  categories : Option String
deriving DecidableEq

/-- The column selection and renaming of data_extraction.py lines 270-292. -/
def clean_business (b : BusinessRow) : BusinessClean :=
  { business_id := b.business_id, business_name := b.name, city := b.city,
    state := b.state, postal_code := b.postal_code, latitude := b.latitude,
    longitude := b.longitude, business_avg_stars := b.stars,
    business_total_reviews := b.review_count, is_open := b.is_open,
    categories := b.categories }

/-- One decoded object of the Yelp review JSON file, with the keys
`extract_city_dataset` reads. `useful`/`funny`/`cool` are read with
`review.get(_, 0)`, so they may be absent. -/
structure RawReview where
  review_id : String
  business_id : String
  user_id : String
  stars : Int
  date : String
  text : String
  useful : Option Int
  funny : Option Int
  cool : Option Int
deriving DecidableEq

/-- A row of `df_reviews` built at data_extraction.py lines 216-226. -/
structure ReviewRow where
  review_id : String
  business_id : String
  user_id : String
  review_stars : Int
  review_date : String
  review_text : String
  useful : Int
  funny : Int
  cool : Int
deriving DecidableEq

/-- One decoded object of the Yelp user JSON file, with the keys
`extract_city_dataset` reads; all but `user_id` are read with `.get`. -/
structure RawUser where
  user_id : String
  name : Option String
  review_count : Option Int
  yelping_since : Option String
  average_stars : Option Int
deriving DecidableEq

/-- A row of `df_users` built at data_extraction.py lines 249-255. -/
structure UserRow where
  user_id : String
  user_name : Option String
  user_review_count : Int
  user_yelping_since : Option String
  user_average_stars : Int
deriving DecidableEq

/-- Python `str.split(sep)` for a one-character separator, over the string's
characters: `"" → [""]`, separators delimit (possibly empty) fields. -/
def splitOnChar (sep : Char) : List Char → List (List Char)
  | [] => [[]]
  | c :: rest =>
    if c = sep then [] :: splitOnChar sep rest
    else
      match splitOnChar sep rest with
      | [] => [[c]]
      | w :: ws => (c :: w) :: ws

/-- Decimal value of a digit string; `none` if any character is not a digit. -/
def digitsVal (cs : List Char) : Option Nat :=
  cs.foldl (fun acc c =>
    acc.bind fun v => if c.isDigit then some (v * 10 + (c.toNat - 48)) else none) (some 0)

/-- Python `int(s)` semantics on a character string: an optionally signed
non-empty decimal numeral; anything else fails. -/
def strToInt? : List Char → Option Int
  | [] => none
  | '-' :: rest => if rest.isEmpty then none else (digitsVal rest).map (fun v => -(v : Int))
  | '+' :: rest => if rest.isEmpty then none else (digitsVal rest).map (fun v => (v : Int))
  | cs => (digitsVal cs).map (fun v => (v : Int))

/-- Python `needle in hay` on strings: substring containment over the
characters. -/
def containsSub (needle : List Char) : List Char → Bool
  | [] => needle.isEmpty
  | c :: t => needle.isPrefixOf (c :: t) || containsSub needle t

/-- Python `int(s)`: raises `ValueError` on a non-numeral. -/
def pyInt (cs : List Char) : Except String Int :=
  match strToInt? cs with
  | some n => Except.ok n
  | none => Except.error "invalid literal for int() with base 10"

/-- Models `pd.to_datetime` on one ISO `YYYY-MM-DD[ hh:mm:ss]`-style date
string as used by this repository's data: drop a time-of-day part, split on
`-`, parse the three components, reject out-of-range month/day. Returns
`none` when the string does not parse (the caller decides whether that raises
or becomes `NaT`). -/
def parseDate (s : String) : Option (Int × Int × Int) :=
  match splitOnChar '-' ((splitOnChar ' ' s.toList).headD []) with
  | [y, m, d] =>
    match strToInt? y, strToInt? m, strToInt? d with
    | some yv, some mv, some dv =>
      if 1 ≤ mv ∧ mv ≤ 12 ∧ 1 ≤ dv ∧ dv ≤ 31 then some (yv, mv, dv) else none
    | _, _, _ => none
  | _ => none

/-- `get_season` (data_extraction.py lines 302-310): fixed 3-month buckets,
everything outside 1-8 and 12 falls to the `else` branch `Fall`. -/
def get_season (month : Int) : String :=
  if month = 12 ∨ month = 1 ∨ month = 2 then "Winter"
  else if month = 3 ∨ month = 4 ∨ month = 5 then "Spring"
  else if month = 6 ∨ month = 7 ∨ month = 8 then "Summer"
  else "Fall"

/-- `(target_years is None) or (year in target_years)`
(data_extraction.py line 214). -/
def yearAllowed (target_years : Option (List Int)) (year : Int) : Bool :=
  match target_years with
  | none => true
  | some ys => ys.contains year

/-- STEP 1 of `extract_city_dataset` (data_extraction.py lines 206-234): scan
the review file line by line. `json.loads` has no try/except here, so a
malformed line raises and aborts the whole extraction; `int(date.split("-")[0])`
is computed for every decoded line before any filtering and can also raise.
Matching rows keep the review fields under their `df_reviews` names. -/
def extractReviews (business_ids : List String) (target_years : Option (List Int)) :
    List (Option RawReview) → Except String (List ReviewRow)
  | [] => Except.ok []
  | none :: _ => Except.error "json.loads: JSONDecodeError"
  | some raw :: rest =>
    match pyInt ((splitOnChar '-' raw.date.toList).headD []) with
    | Except.error e => Except.error e
    | Except.ok year =>
      match extractReviews business_ids target_years rest with
      | Except.error e => Except.error e
      | Except.ok rows =>
        if business_ids.contains raw.business_id && yearAllowed target_years year then
          Except.ok
            ({ review_id := raw.review_id, business_id := raw.business_id,
               user_id := raw.user_id, review_stars := raw.stars,
               review_date := raw.date, review_text := raw.text,
               useful := raw.useful.getD 0, funny := raw.funny.getD 0,
               cool := raw.cool.getD 0 } :: rows)
        else Except.ok rows

/-- STEP 2 of `extract_city_dataset` (data_extraction.py lines 244-261): scan
the user file; again `json.loads` is unprotected. `user_ids_needed` is the set
of user ids of the kept reviews (membership is all that is used of it). -/
def extractUsers (user_ids_needed : List String) :
    List (Option RawUser) → Except String (List UserRow)
  | [] => Except.ok []
  | none :: _ => Except.error "json.loads: JSONDecodeError"
  | some raw :: rest =>
    match extractUsers user_ids_needed rest with
    | Except.error e => Except.error e
    | Except.ok rows =>
      if user_ids_needed.contains raw.user_id then
        Except.ok
          ({ user_id := raw.user_id, user_name := raw.name,
             user_review_count := raw.review_count.getD 0,
             user_yelping_since := raw.yelping_since,
             user_average_stars := raw.average_stars.getD 0 } :: rows)
      else Except.ok rows

/-- `DataFrame.merge(..., how="left")` on a string key: each left row is kept;
with no right match it pairs with `none` (NaN columns), with matches it is
repeated once per matching right row, in right order. -/
def leftMerge {L R : Type} (ls : List L) (rs : List R)
    (lkey : L → String) (rkey : R → String) : List (L × Option R) :=
  ls.flatMap fun l =>
    match rs.filter (fun r => rkey r == lkey l) with
    | [] => [(l, none)]
    | ms => ms.map (fun r => (l, some r))

/-- A row of the final merged DataFrame: review fields, the left-joined user
and business sides, and the derived temporal fields of data_extraction.py
lines 296-312. -/
structure FinalRow where
  review : ReviewRow
  user : Option UserRow
  business : Option BusinessClean
  year : Int
  month : Int
  season : String
deriving DecidableEq

/-- Lines 297-312: `pd.to_datetime` (default `errors='raise'`) on the review
date, then `year`, `month` and `season` columns. -/
def addTemporal (p : (ReviewRow × Option UserRow) × Option BusinessClean) :
    Except String FinalRow :=
  match parseDate p.1.1.review_date with
  | none => Except.error "pd.to_datetime: unable to parse date"
  | some (y, m, _) =>
    Except.ok
      { review := p.1.1, user := p.1.2, business := p.2,
        year := y, month := m, season := get_season m }

/-- STEP 3 of `extract_city_dataset` (data_extraction.py lines 263-294):
`df_reviews LEFT JOIN df_users ON user_id`, then
`LEFT JOIN business_df_clean ON business_id`. -/
def mergeStage (df_reviews : List ReviewRow) (df_users : List UserRow)
    (business_df_clean : List BusinessClean) :
    List ((ReviewRow × Option UserRow) × Option BusinessClean) :=
  leftMerge (leftMerge df_reviews df_users (fun r => r.user_id) (fun u => u.user_id))
    business_df_clean (fun p => p.1.business_id) (fun b => b.business_id)

/-- The rows `mergeStage` produces for one review. -/
def mergeOne (df_users : List UserRow) (business_df_clean : List BusinessClean)
    (r : ReviewRow) : List ((ReviewRow × Option UserRow) × Option BusinessClean) :=
  mergeStage [r] df_users business_df_clean

/-- `extract_city_dataset` (data_extraction.py lines 145-316). -/
def extract_city_dataset (business_df : List BusinessRow)
    (review_lines : List (Option RawReview)) (user_lines : List (Option RawUser))
    (target_years : Option (List Int)) (city state : String) :
    Except String (List FinalRow) :=
  let business_df_city := business_df.filter (fun b => b.city == city && b.state == state)
  let business_ids := business_df_city.map (fun b => b.business_id)
  match extractReviews business_ids target_years review_lines with
  | Except.error e => Except.error e
  | Except.ok df_reviews =>
    match extractUsers (df_reviews.map (fun r => r.user_id)) user_lines with
    | Except.error e => Except.error e
    | Except.ok df_users =>
      let business_df_clean := business_df_city.map clean_business
      (mergeStage df_reviews df_users business_df_clean).mapM addTemporal

/-- Equality of `Except` results is decidable when both components are, so
concrete pipeline runs can be checked by evaluation. -/
instance {ε α : Type} [DecidableEq ε] [DecidableEq α] : DecidableEq (Except ε α) :=
  fun a b =>
    match a, b with
    | Except.ok x, Except.ok y => decidable_of_iff (x = y) (by simp)
    | Except.error x, Except.error y => decidable_of_iff (x = y) (by simp)
    | Except.ok _, Except.error _ => isFalse (by simp)
    | Except.error _, Except.ok _ => isFalse (by simp)

/-- Left-merging never drops a left row: the output has at least one row per
left row. -/
theorem leftMerge_length_le {L R : Type} (ls : List L) (rs : List R)
    (lkey : L → String) (rkey : R → String) :
    ls.length ≤ (leftMerge ls rs lkey rkey).length := by
  induction ls with
  | nil => simp [leftMerge]
  | cons l ls ih =>
    simp only [leftMerge, List.flatMap_cons, List.length_append, List.length_cons]
    rcases hfe : rs.filter (fun r => rkey r == lkey l) with _ | ⟨m, ms⟩ <;>
      simp only [List.length_cons, List.length_map, List.length_nil] <;>
      simp only [leftMerge] at ih <;> omega

/-- Every output row of a left merge carries one of the left rows unchanged in
its first component. -/
theorem leftMerge_fst_mem {L R : Type} (ls : List L) (rs : List R)
    (lkey : L → String) (rkey : R → String) :
    ∀ p ∈ leftMerge ls rs lkey rkey, p.1 ∈ ls := by
  intro p hp
  rw [leftMerge, List.mem_flatMap] at hp
  obtain ⟨l, hl, hpl⟩ := hp
  rcases hfe : rs.filter (fun r => rkey r == lkey l) with _ | ⟨m, ms⟩ <;>
    rw [hfe] at hpl
  · rw [List.mem_singleton.mp hpl]
    exact hl
  · obtain ⟨x, _, rfl⟩ := List.mem_map.mp hpl
    exact hl

/-- The merge stage decomposes review-by-review. -/
theorem mergeStage_eq_flatMap (df_users : List UserRow)
    (business_df_clean : List BusinessClean) (df_reviews : List ReviewRow) :
    mergeStage df_reviews df_users business_df_clean
      = df_reviews.flatMap (mergeOne df_users business_df_clean) := by
  simp only [mergeStage, mergeOne, leftMerge, List.flatMap_assoc, List.flatMap_cons,
    List.flatMap_nil, List.append_nil]
  congr 1
  funext x
  simp only [mergeOne, mergeStage, leftMerge, List.flatMap_cons, List.flatMap_nil,
    List.append_nil]

/-- One warning is printed per malformed line. -/
theorem malformedLines_length {α : Type} :
    ∀ (ls : List (Option α)) (ln : Nat),
      (malformedLines ln ls).length = (ls.filter (fun l => l.isNone)).length := by
  intro ls
  induction ls with
  | nil => intro ln; rfl
  | cons l rest ih =>
    intro ln
    cases l <;> simp [malformedLines, ih]

/-! Fixtures: one New Orleans business `B1`, three reviews for it spanning
2013 and 2015, one user. -/

def bizB1 : BusinessRow :=
  { business_id := "B1", name := "Cafe One", city := "New Orleans", state := "LA",
    postal_code := some "70116", latitude := some 29, longitude := some (-90),
    stars := some 4, review_count := some 3, is_open := some 1,
    categories := some "Restaurants, Cafes" }

def rawR1 : RawReview :=
  { review_id := "R1", business_id := "B1", user_id := "U1", stars := 5,
    date := "2013-05-10", text := "great", useful := some 1, funny := none,
    cool := some 0 }

def rawR2 : RawReview :=
  { review_id := "R2", business_id := "B1", user_id := "U1", stars := 4,
    date := "2015-07-04", text := "good", useful := none, funny := some 2,
    cool := none }

def rawR3 : RawReview :=
  { review_id := "R3", business_id := "B1", user_id := "U2", stars := 3,
    date := "2015-01-15", text := "ok", useful := none, funny := none,
    cool := none }

def fixtureReviews : List (Option RawReview) := [some rawR1, some rawR2, some rawR3]

def fixtureUsers : List (Option RawUser) :=
  [some { user_id := "U1", name := some "Ann", review_count := some 10,
          yelping_since := some "2010-01-01", average_stars := some 4 }]

/-- C3 (amended): the streaming scan of `convert_json_dataset_to_chunks`
skips exactly the malformed lines — the written chunks concatenate to the
decodable records in original order — and emits one warning per skipped line
carrying its 1-based line number, completing on every input. (The review scan
of `extract_city_dataset`, cited by the same claim, instead aborts on the
first malformed line; see the counterexample.) -/
theorem convert_scan_skips_malformed {α : Type} (k : Nat) (hk : 0 < k)
    (lines : List (Option α)) :
    (convertBody k lines).chunks.flatten = lines.filterMap id
    ∧ (convertBody k lines).warnings = malformedLines 0 lines
    ∧ (convertBody k lines).warnings.length
        = (lines.filter (fun l => l.isNone)).length := by
  obtain ⟨hflat, _, _, hwarn, _, _⟩ := convertBody_spec k hk lines
  refine ⟨hflat, hwarn, ?_⟩
  rw [hwarn]
  exact malformedLines_length lines 0

/-- Witness for C3's amended statement at `k = 2` on a file with malformed
lines 2 and 4. -/
theorem convert_scan_skips_malformed_witness :
    0 < 2
    ∧ ((convertBody 2 [some 1, none, some 2, none, some 3]).chunks.flatten
          = ([some 1, none, some 2, none, some 3] : List (Option Nat)).filterMap id
        ∧ (convertBody 2 [some 1, none, some 2, none, some 3]).warnings
            = malformedLines 0 [some 1, none, some 2, none, some 3]
        ∧ (convertBody 2 [some 1, none, some 2, none, some 3]).warnings.length
            = (([some 1, none, some 2, none, some 3] : List (Option Nat)).filter
                (fun l => l.isNone)).length) :=
  ⟨by decide, convert_scan_skips_malformed 2 (by decide) [some 1, none, some 2, none, some 3]⟩

/-- Counterexample for C3 as stated: the review scan of
`extract_city_dataset` (data_extraction.py line 208, `json.loads` without
try/except) aborts on one malformed line instead of skipping it — the valid
record on line 1 is lost. -/
theorem extract_aborts_on_malformed :
    extract_city_dataset [bizB1] [some rawR1, none] [] none "New Orleans" "LA"
      = Except.error "json.loads: JSONDecodeError" := by decide

/-- C4: every review record entering the merge stage yields at least one
output row carrying the review unchanged; a review with no matching user and
no matching business yields exactly one row with both sides null and the
review fields intact; the stage decomposes review-by-review. -/
theorem merge_left_join_total (df_reviews : List ReviewRow) (df_users : List UserRow)
    (business_df_clean : List BusinessClean) (r : ReviewRow)
    (hu : ∀ u ∈ df_users, u.user_id ≠ r.user_id)
    (hb : ∀ b ∈ business_df_clean, b.business_id ≠ r.business_id) :
    mergeOne df_users business_df_clean r = [((r, none), none)]
    ∧ mergeStage df_reviews df_users business_df_clean
        = df_reviews.flatMap (mergeOne df_users business_df_clean)
    ∧ df_reviews.length ≤ (mergeStage df_reviews df_users business_df_clean).length
    ∧ ∀ row ∈ mergeStage df_reviews df_users business_df_clean,
        row.1.1 ∈ df_reviews := by
  have h1 : df_users.filter (fun u => u.user_id == r.user_id) = [] := by
    rw [List.filter_eq_nil_iff]
    intro u hu'
    simpa using hu u hu'
  have h2 : business_df_clean.filter (fun b => b.business_id == r.business_id) = [] := by
    rw [List.filter_eq_nil_iff]
    intro b hb'
    simpa using hb b hb'
  refine ⟨?_, mergeStage_eq_flatMap df_users business_df_clean df_reviews, ?_, ?_⟩
  · simp [mergeOne, mergeStage, leftMerge, h1, h2]
  · show df_reviews.length ≤
      (leftMerge (leftMerge df_reviews df_users (fun r => r.user_id) (fun u => u.user_id))
        business_df_clean (fun p => p.1.business_id) (fun b => b.business_id)).length
    exact Nat.le_trans
      (leftMerge_length_le df_reviews df_users (fun r => r.user_id) (fun u => u.user_id))
      (leftMerge_length_le _ business_df_clean (fun p => p.1.business_id)
        (fun b => b.business_id))
  · intro row hrow
    have hrow' : row ∈
        leftMerge (leftMerge df_reviews df_users (fun r => r.user_id) (fun u => u.user_id))
          business_df_clean (fun p => p.1.business_id) (fun b => b.business_id) := hrow
    have hmid := leftMerge_fst_mem _ business_df_clean (fun p => p.1.business_id)
      (fun b => b.business_id) row hrow'
    exact leftMerge_fst_mem df_reviews df_users (fun r => r.user_id)
      (fun u => u.user_id) row.1 hmid

/-- Witness for C4: review `R9/U9/B9` against a user list and business list
that do not match it. -/
theorem merge_left_join_total_witness :
    (∀ u ∈ [{ user_id := "U1", user_name := some "Ann", user_review_count := 10,
              user_yelping_since := some "2010-01-01",
              user_average_stars := 4 : UserRow }], u.user_id ≠ "U9")
    ∧ (∀ b ∈ [clean_business bizB1], b.business_id ≠ "B9")
    ∧ mergeOne
        [{ user_id := "U1", user_name := some "Ann", user_review_count := 10,
           user_yelping_since := some "2010-01-01", user_average_stars := 4 }]
        [clean_business bizB1]
        { review_id := "R9", business_id := "B9", user_id := "U9", review_stars := 5,
          review_date := "2013-05-10", review_text := "t", useful := 0, funny := 0,
          cool := 0 }
      = [(({ review_id := "R9", business_id := "B9", user_id := "U9", review_stars := 5,
             review_date := "2013-05-10", review_text := "t", useful := 0, funny := 0,
             cool := 0 }, none), none)] :=
  ⟨by decide, by decide,
    (merge_left_join_total []
      [{ user_id := "U1", user_name := some "Ann", user_review_count := 10,
         user_yelping_since := some "2010-01-01", user_average_stars := 4 }]
      [clean_business bizB1]
      { review_id := "R9", business_id := "B9", user_id := "U9", review_stars := 5,
        review_date := "2013-05-10", review_text := "t", useful := 0, funny := 0,
        cool := 0 }
      (by decide) (by decide)).1⟩

/-- C5: `get_season` is a total fixed function of the month alone mapping
12, 1, 2 to Winter, 3, 4, 5 to Spring, 6, 7, 8 to Summer and 9, 10, 11 to
Fall; and for every row processed, the derived `season` column equals
`get_season` of the derived `month` column. -/
theorem get_season_mapping :
    (get_season 12 = "Winter" ∧ get_season 1 = "Winter" ∧ get_season 2 = "Winter")
    ∧ (get_season 3 = "Spring" ∧ get_season 4 = "Spring" ∧ get_season 5 = "Spring")
    ∧ (get_season 6 = "Summer" ∧ get_season 7 = "Summer" ∧ get_season 8 = "Summer")
    ∧ (get_season 9 = "Fall" ∧ get_season 10 = "Fall" ∧ get_season 11 = "Fall")
    ∧ ∀ p, (addTemporal p).map (fun fr => fr.season)
        = (addTemporal p).map (fun fr => get_season fr.month) := by
  refine ⟨by decide, by decide, by decide, by decide, ?_⟩
  intro p
  unfold addTemporal
  rcases parseDate p.1.1.review_date with _ | ⟨y, m, d⟩ <;> rfl

/-- C6: with 3 reviews for business `B1` dated in 2013 and 2015 and
`target_years = [2013]`, `extract_city_dataset` returns exactly 1 review and
its derived `year` is 2013; with `target_years = None` all 3 reviews are
returned. -/
theorem extract_year_filter :
    (extract_city_dataset [bizB1] fixtureReviews fixtureUsers (some [2013])
        "New Orleans" "LA").map (fun rows => (rows.length, rows.map (fun fr => fr.year)))
      = Except.ok (1, [2013])
    ∧ (extract_city_dataset [bizB1] fixtureReviews fixtureUsers none
        "New Orleans" "LA").map (fun rows => rows.length)
      = Except.ok 3 := by decide

/-! ## feature_engineering.py : add_seasons -/

/-- `dt.dayofweek` (Monday = 0) via Sakamoto's method, for Gregorian dates
with positive years (the only dates this repository processes). -/
def dayofweek (y m d : Int) : Int :=
  let t : List Int := [0, 3, 2, 5, 0, 3, 5, 1, 4, 6, 2, 4]
  let y2 := if m < 3 then y - 1 else y
  (y2 + y2 / 4 - y2 / 100 + y2 / 400 + t.getD (m - 1).toNat 0 + d + 6) % 7

/-- The inner `get_season` of `add_seasons` (feature_engineering.py lines
97-101) applied to the float `month` column: a `NaN` month (from a missing
date) fails every list-membership test and falls through to `Fall`. -/
def get_season_na : Option Int → String
  | none => "Fall"
  | some m => get_season m

/-- `pd.to_datetime` over one cell of the date column: a missing value (NaN)
passes through as `NaT`; a string that fails to parse raises (the pandas
default `errors='raise'`). -/
def to_datetime1 (v : Option String) : Except String (Option (Int × Int × Int)) :=
  match v with
  | none => Except.ok none
  | some s =>
    match parseDate s with
    | some d => Except.ok (some d)
    | none => Except.error "to_datetime: unable to parse date"

/-- `pd.to_datetime` over the whole date column. -/
def to_datetime : List (Option String) → Except String (List (Option (Int × Int × Int)))
  | [] => Except.ok []
  | v :: rest =>
    match to_datetime1 v with
    | Except.error e => Except.error e
    | Except.ok d =>
      match to_datetime rest with
      | Except.error e => Except.error e
      | Except.ok ds => Except.ok (d :: ds)

/-- A row after `add_seasons`: the unchanged other columns (`payload`), the
parsed date column, and the derived columns of feature_engineering.py lines
92-103. Derived numeric columns are `none` where the date is `NaT`. -/
structure SeasonedRow (α : Type) where
  payload : α
  review_date : Option (Int × Int × Int)
  year : Option Int
  month : Option Int
  day_of_week : Option Int
  quarter : Option Int
  season : String
deriving DecidableEq

/-- The per-row column derivations of `add_seasons`: `dt.year`, `dt.month`,
`dt.dayofweek`, `dt.quarter` (all `NaN` on `NaT`), and
`month.apply(get_season)`. -/
def mkSeasonRow {α : Type} (p : α × Option (Int × Int × Int)) : SeasonedRow α :=
  { payload := p.1, review_date := p.2,
    year := p.2.map (fun d => d.1),
    month := p.2.map (fun d => d.2.1),
    day_of_week := p.2.map (fun d => dayofweek d.1 d.2.1 d.2.2),
    quarter := p.2.map (fun d => (d.2.1 + 2) / 3),
    season := get_season_na (p.2.map (fun d => d.2.1)) }

/-- `add_seasons` (feature_engineering.py lines 74-109): parse the date
column with `pd.to_datetime` (default `errors='raise'`), then derive `year`,
`month`, `day_of_week`, `quarter`, `season`. A row is `(payload, date cell)`. -/
def add_seasons {α : Type} (rows : List (α × Option String)) :
    Except String (List (SeasonedRow α)) :=
  match to_datetime (rows.map Prod.snd) with
  | Except.error e => Except.error e
  | Except.ok dates =>
    Except.ok ((rows.zip dates).map (fun q => mkSeasonRow (q.1.1, q.2)))

/-- Zipping a list with its own image under a map pairs each element with its
image. -/
theorem zip_map_self {α β : Type} (g : α → β) (l : List α) :
    l.zip (l.map g) = l.map (fun a => (a, g a)) := by
  induction l with
  | nil => rfl
  | cons a l ih => simp [ih]

/-- On a column whose present values all parse, `to_datetime` succeeds and is
the cell-wise parse. -/
theorem to_datetime_ok (col : List (Option String))
    (h : ∀ v ∈ col, ∀ s, v = some s → (parseDate s).isSome) :
    to_datetime col = Except.ok (col.map (fun v => v.bind parseDate)) := by
  induction col with
  | nil => rfl
  | cons v rest ih =>
    have hrest := ih (fun w hw s hs => h w (by simp [hw]) s hs)
    cases v with
    | none => simp [to_datetime, to_datetime1, hrest]
    | some s =>
      have hv := h (some s) (by simp) s rfl
      rcases hd : parseDate s with _ | d
      · rw [hd] at hv
        simp at hv
      · simp [to_datetime, to_datetime1, hd, hrest]

/-- C7 (amended): `add_seasons` is a pure, deterministic function of its
input; on inputs whose present date strings all parse it succeeds and equals
the cell-wise derivation (genuinely missing date cells propagate as `NaT`
with `none` derived numeric fields and season `Fall`); but a date string
that fails to parse makes `pd.to_datetime` (default `errors='raise'`) raise,
aborting the whole batch. -/
theorem add_seasons_ok {α : Type} (rows : List (α × Option String))
    (h : ∀ p ∈ rows, ∀ s, p.2 = some s → (parseDate s).isSome) :
    add_seasons rows
      = Except.ok (rows.map (fun p => mkSeasonRow (p.1, p.2.bind parseDate))) := by
  have hcol := to_datetime_ok (rows.map Prod.snd) (by
    intro v hv s hs
    obtain ⟨p, hp, rfl⟩ := List.mem_map.mp hv
    exact h p hp s hs)
  simp only [add_seasons, hcol, List.map_map, zip_map_self]
  rfl

/-- Witness for C7's amended statement: one parseable date and one missing
date cell. -/
theorem add_seasons_ok_witness :
    (∀ p ∈ [((0 : Int), some "2013-05-10"), ((1 : Int), none)], ∀ s : String,
      p.2 = some s → (parseDate s).isSome)
    ∧ add_seasons [((0 : Int), some "2013-05-10"), ((1 : Int), none)]
        = Except.ok ([((0 : Int), some "2013-05-10"), ((1 : Int), none)].map
            (fun p => mkSeasonRow (p.1, p.2.bind parseDate))) :=
  ⟨by decide, add_seasons_ok [((0 : Int), some "2013-05-10"), ((1 : Int), none)] (by decide)⟩

/-- Counterexample for C7 as stated: a single malformed date value makes
`add_seasons` raise and abort the batch instead of propagating a missing
derived field. -/
theorem add_seasons_raises_cex :
    add_seasons [((0 : Int), some "not-a-date")]
      = Except.error "to_datetime: unable to parse date" := by decide

/-! ## airbnb_utils.py : download_insideairbnb -/

/-- The `city_map` dict (airbnb_utils.py lines 27-30). -/
def city_map : List (String × String) :=
  [("chicago", "united-states/il/chicago"),
   ("los_angeles", "united-states/ca/los-angeles")]

/-- Observable outcome of one `download_insideairbnb` call: the returned
`(success, message)` pair, the URL that was built, whether `requests.get`
was called, and the bytes written to `output_path` (if any). The `size_mb`
figure interpolated into the real messages is elided. -/
structure DownloadOutcome where
  success : Bool
  message : String
  url : Option String
  requested : Bool
  written : Option (List Nat)
deriving DecidableEq

/-- `download_insideairbnb` (airbnb_utils.py lines 9-52). `dest_exists`
models `output_path.exists()`; `net` models the outcome of
`requests.get(url)` + `raise_for_status()`: decoded bytes, or the message of
a raised `requests.exceptions.RequestException` (which the function catches
and converts to a `(False, message)` result). -/
def download_insideairbnb (city date_snapshot file_type : String)
    (dest_exists : Bool) (net : Except String (List Nat)) : DownloadOutcome :=
  match city_map.find? (fun q => q.1 == city) with
  | none =>
    { success := false, message := "Unknown city: " ++ city,
      url := none, requested := false, written := none }
  | some q =>
    if dest_exists then
      { success := true, message := "[SKIP] File exists",
        url := some ("https://data.insideairbnb.com/" ++ q.2 ++ "/" ++ date_snapshot
          ++ "/data/" ++ file_type ++ ".csv.gz"),
        requested := false, written := none }
    else
      match net with
      | Except.ok bytes =>
        { success := true, message := "Downloaded successfully",
          url := some ("https://data.insideairbnb.com/" ++ q.2 ++ "/" ++ date_snapshot
            ++ "/data/" ++ file_type ++ ".csv.gz"),
          requested := true, written := some bytes }
      | Except.error e =>
        { success := false, message := "Download failed: " ++ e,
          url := some ("https://data.insideairbnb.com/" ++ q.2 ++ "/" ++ date_snapshot
            ++ "/data/" ++ file_type ++ ".csv.gz"),
          requested := true, written := none }

/-- C8: for a supported city, an existing destination is a success result
with no network request and no write, independent of the network; otherwise
the fetched bytes are written verbatim on success, and a raised network
error is captured and returned as a `(False, message)` result. -/
theorem download_insideairbnb_spec (city date_snapshot file_type : String)
    (hcity : (city_map.find? (fun q => q.1 == city)).isSome)
    (bytes : List Nat) (e : String) (net net' : Except String (List Nat)) :
    ((download_insideairbnb city date_snapshot file_type true net).success = true
      ∧ (download_insideairbnb city date_snapshot file_type true net).requested = false
      ∧ (download_insideairbnb city date_snapshot file_type true net).written = none
      ∧ download_insideairbnb city date_snapshot file_type true net
          = download_insideairbnb city date_snapshot file_type true net')
    ∧ ((download_insideairbnb city date_snapshot file_type false
          (Except.ok bytes)).success = true
      ∧ (download_insideairbnb city date_snapshot file_type false
          (Except.ok bytes)).written = some bytes)
    ∧ ((download_insideairbnb city date_snapshot file_type false
          (Except.error e)).success = false
      ∧ (download_insideairbnb city date_snapshot file_type false
          (Except.error e)).message = "Download failed: " ++ e
      ∧ (download_insideairbnb city date_snapshot file_type false
          (Except.error e)).written = none) := by
  obtain ⟨q, hq⟩ := Option.isSome_iff_exists.mp hcity
  refine ⟨⟨?_, ?_, ?_, ?_⟩, ⟨?_, ?_⟩, ?_, ?_, ?_⟩ <;>
    simp [download_insideairbnb, hq]

/-- Witness for C8 at city `chicago`. -/
theorem download_insideairbnb_spec_witness :
    (city_map.find? (fun q => q.1 == "chicago")).isSome
    ∧ (((download_insideairbnb "chicago" "2025-06-17" "reviews" true
          (Except.ok [7])).success = true
        ∧ (download_insideairbnb "chicago" "2025-06-17" "reviews" true
            (Except.ok [7])).requested = false
        ∧ (download_insideairbnb "chicago" "2025-06-17" "reviews" true
            (Except.ok [7])).written = none
        ∧ download_insideairbnb "chicago" "2025-06-17" "reviews" true (Except.ok [7])
            = download_insideairbnb "chicago" "2025-06-17" "reviews" true
                (Except.error "timeout"))
      ∧ ((download_insideairbnb "chicago" "2025-06-17" "reviews" false
            (Except.ok [1, 2])).success = true
        ∧ (download_insideairbnb "chicago" "2025-06-17" "reviews" false
            (Except.ok [1, 2])).written = some [1, 2])
      ∧ ((download_insideairbnb "chicago" "2025-06-17" "reviews" false
            (Except.error "timeout")).success = false
        ∧ (download_insideairbnb "chicago" "2025-06-17" "reviews" false
            (Except.error "timeout")).message = "Download failed: " ++ "timeout"
        ∧ (download_insideairbnb "chicago" "2025-06-17" "reviews" false
            (Except.error "timeout")).written = none)) :=
  ⟨by decide, download_insideairbnb_spec "chicago" "2025-06-17" "reviews" (by decide)
    [1, 2] "timeout" (Except.ok [7]) (Except.error "timeout")⟩

/-! ## data_filtering.py : classify_tourism_establishment -/

/-- `hotel_keywords` (data_filtering.py line 44). -/
def hotel_keywords : List (List Char) := ["hotel".toList, "hotels".toList]

/-- `restaurant_keywords` (data_filtering.py line 49). -/
def restaurant_keywords : List (List Char) :=
  ["restaurant".toList, "restaurants".toList, "cafe".toList, "cafes".toList]

/-- `classify_tourism_establishment` (data_filtering.py lines 7-54):
`pd.isna(categories)` → `Unknown`; otherwise case-insensitive substring
match, hotel keywords first, restaurant keywords second, else `Other`. -/
def classify_tourism_establishment (categories : Option String) : String :=
  match categories with
  | none => "Unknown"
  | some s =>
    if hotel_keywords.any (fun kw => containsSub kw (s.toList.map Char.toLower)) then
      "Hotels"
    else if restaurant_keywords.any
        (fun kw => containsSub kw (s.toList.map Char.toLower)) then
      "Restaurants"
    else "Other"

/-- C10: a missing categories value classifies as `Unknown`; a string
matching a hotel keyword classifies as `Hotels` even if it also matches a
restaurant keyword (hotel priority); and `Other` is returned only when
neither keyword set matches. -/
theorem classify_tourism_spec :
    classify_tourism_establishment none = "Unknown"
    ∧ (∀ s : String,
        hotel_keywords.any (fun kw => containsSub kw (s.toList.map Char.toLower)) = true →
        restaurant_keywords.any
          (fun kw => containsSub kw (s.toList.map Char.toLower)) = true →
        classify_tourism_establishment (some s) = "Hotels")
    ∧ (∀ s : String, classify_tourism_establishment (some s) = "Other" →
        hotel_keywords.any (fun kw => containsSub kw (s.toList.map Char.toLower)) = false
        ∧ restaurant_keywords.any
            (fun kw => containsSub kw (s.toList.map Char.toLower)) = false) := by
  refine ⟨rfl, ?_, ?_⟩
  · intro s hh _
    rw [classify_tourism_establishment]
    simp only [hh, if_true]
  · intro s h
    by_cases hh : hotel_keywords.any
        (fun kw => containsSub kw (s.toList.map Char.toLower)) = true
    · rw [classify_tourism_establishment] at h
      simp only [hh, if_true] at h
      exact absurd h (by decide)
    · by_cases hr : restaurant_keywords.any
          (fun kw => containsSub kw (s.toList.map Char.toLower)) = true
      · rw [classify_tourism_establishment] at h
        simp only [hh, hr, if_true, if_false, Bool.false_eq_true] at h
        exact absurd h (by decide)
      · exact ⟨by simpa using hh, by simpa using hr⟩

/-- Witness for C10 at a string matching both keyword sets. -/
theorem classify_tourism_spec_witness :
    (hotel_keywords.any
        (fun kw => containsSub kw ("Hotel & Cafe".toList.map Char.toLower)) = true)
    ∧ (restaurant_keywords.any
        (fun kw => containsSub kw ("Hotel & Cafe".toList.map Char.toLower)) = true)
    ∧ classify_tourism_establishment (some "Hotel & Cafe") = "Hotels" :=
  ⟨by decide, by decide, classify_tourism_spec.2.1 "Hotel & Cafe" (by decide) (by decide)⟩

example :
    (convertBody 2 [some 1, none, none, some 2]).warnings = [2, 3] := by decide

example :
    convert_json_dataset_to_chunks 2 [[9]] 0 [some 1, some 2, some 3]
      = { dir := [[9]], writes := [], success := true,
          chunk_count := 1, total_records := 1 } := by decide
